import Mathlib

/-- ASCII lowercase of one character, the per-character action of
Python `str.lower` on the ASCII queries the router handles. -/
def lowerChar (c : Char) : Char :=
  if 'A' ≤ c ∧ c ≤ 'Z' then Char.ofNat (c.toNat + 32) else c

/-- Lowercase a character list. -/
def lowerL (s : List Char) : List Char := s.map lowerChar

/-- Lowercase a string, as Python `str.lower()` on ASCII text. -/
def lowerStr (s : String) : String := String.mk (lowerL s.data)

/-- Whitespace recognized by the model of Python `str.strip()`. -/
def isSpaceChar (c : Char) : Bool :=
  c = ' ' || c = '\t' || c = '\n' || c = '\r'

/-- Python `str.strip()` on a character list. -/
def stripL (s : List Char) : List Char :=
  ((s.dropWhile isSpaceChar).reverse.dropWhile isSpaceChar).reverse

/-- Python `str.strip()`. -/
def stripStr (s : String) : String := String.mk (stripL s.data)

/-- Python's substring containment `needle in hay` (contiguous substring). -/
def hasSub (hay needle : List Char) : Bool :=
  match hay with
  | [] => needle.isEmpty
  | _ :: t => needle.isPrefixOf hay || hasSub t needle

/-- String-level substring containment, Python `needle in hay`. -/
def strIn (needle hay : String) : Bool := hasSub hay.data needle.data

/-- The three role labels of `classify_player_role` (src/db/chroma_db.py). -/
inductive Role where
  | Bowler
  | Batsman
  | AllRounder
  deriving DecidableEq

/-- `classify_player_role` from src/db/chroma_db.py lines 14-24: the
order-sensitive rule on the record's Total Runs and Wickets. -/
def classify_player_role (runs wickets : Int) : Role :=
  if wickets > 5 ∧ runs < 50 then .Bowler
  else if runs > 100 ∧ wickets < 3 then .Batsman
  else .AllRounder

/-- The fixed cricket keyword list of `validate_cricket_query`
(src/db/chroma_db.py lines 29-33). -/
def cricket_keywords : List String :=
  ["cricket", "player", "batsman", "bowler", "all-rounder", "allrounder",
   "team", "runs", "wickets", "innings", "stats", "statistics", "batting",
   "bowling", "score", "match", "tournament", "performance", "best"]

/-- `validate_cricket_query` from src/db/chroma_db.py lines 27-36:
the lowercased query must contain at least one cricket keyword. -/
def validate_cricket_query (query : String) : Bool :=
  cricket_keywords.any (fun kw => hasSub (lowerL query.data) kw.data)

/-- The greeting token list of `query_chatbot`
(src/routes/chatbot_routes.py line 70). -/
def greeting_words : List String := ["hi", "hello", "hey", "greetings", "hola"]

/-- Outcome of the entry checks of `query_chatbot`
(src/routes/chatbot_routes.py lines 63-78), before storage is touched. -/
inductive EarlyRoute where
  | emptyPrompt
  | greet
  | refuse
  | proceed (queryLower : String)
  deriving DecidableEq

/-- The entry checks of `query_chatbot` (lines 63-78): strip, empty check,
exact greeting match on the lowercased query, then the relevance filter. -/
def early_route (query : String) : EarlyRoute :=
  let q := stripStr query
  if q = "" then .emptyPrompt
  else
    let ql := lowerStr q
    if greeting_words.contains ql then .greet
    else if validate_cricket_query q then .proceed ql
    else .refuse

/-- A normalized player record: the canonical field set produced by the
metadata built in src/db/chroma_db.py lines 123-135 and re-coerced in
src/routes/chatbot_routes.py lines 93-125. -/
structure Player where
  name : String
  university : String
  category : String
  role : String
  total_runs : Int
  balls_faced : Int
  innings_played : Int
  wickets : Int
  overs_bowled : Rat
  runs_conceded : Int
  base_price : Int
  deriving DecidableEq

/-- Canned reply for an empty query (chatbot_routes.py line 66). -/
def emptyQueryMsg : String := "Please provide a query."

/-- Canned greeting reply (chatbot_routes.py line 73). -/
def greetingMsg : String :=
  "Hello! Welcome to SpiritxBot. I can help you with cricket player information. Ask me about players, batsmen, bowlers, all-rounders, or the best cricket team!"

/-- Canned refusal reply for off-domain queries (chatbot_routes.py line 78). -/
def refusalMsg : String :=
  "I only provide information about cricket players and teams. Please ask me about cricket players, statistics, or teams."

/-- Canned reply when the collection is unavailable (chatbot_routes.py line 82). -/
def dbErrorMsg : String :=
  "Error accessing player database. Please try again later."

/-- Reply of the generic exception handler (chatbot_routes.py line 604). -/
def processingErrorMsg : String :=
  "An error occurred while processing your request."

/-- Final not-found reply of the fallback (chatbot_routes.py line 600). -/
def notFoundMsg : String :=
  "I couldn't find the information you're looking for. Please try asking about specific cricket players, teams, or statistics."

/-- The staged front of `query_chatbot` (chatbot_routes.py lines 63-90):
empty check, greeting, relevance filter, then the storage access; the
remainder of the pipeline (normalization, intent dispatch, handlers) is the
continuation `rest`, which only runs once a collection was obtained. -/
def query_chatbot_front (query : String) (storage : Option (List Player))
    (rest : List Player → String) : String :=
  match early_route query with
  | .emptyPrompt => emptyQueryMsg
  | .greet => greetingMsg
  | .refuse => refusalMsg
  | .proceed _ =>
    match storage with
    | none => dbErrorMsg
    | some players => rest players

/-- The intent labels of the keyword dispatch chain
(chatbot_routes.py lines 172-445), after the greeting / relevance / name
search stages. -/
inductive Intent where
  | bestBatsman
  | bestBowler
  | bestAllRounder
  | bestPlayers
  | bestTeam
  | listBatsmen
  | listBowlers
  | listAllRounders
  | mixedPlayers
  | fallback
  deriving DecidableEq

/-- The keyword dispatch chain of `query_chatbot`
(chatbot_routes.py lines 172-445) on the lowercased query: a fixed
if/elif cascade, first match wins, with the vector-search fallback as the
terminal case. -/
def route_intent (ql : String) : Intent :=
  if strIn "best batsman" ql then .bestBatsman
  else if strIn "best bowler" ql then .bestBowler
  else if strIn "best all-rounder" ql || strIn "best all rounder" ql
       || strIn "best allrounder" ql then .bestAllRounder
  else if strIn "best players" ql then .bestPlayers
  else if strIn "best team" ql then .bestTeam
  else if strIn "batsmen" ql || strIn "batsman list" ql then .listBatsmen
  else if strIn "bowlers" ql || strIn "bowler list" ql then .listBowlers
  else if strIn "all-rounders" ql || strIn "all rounders" ql
       || strIn "allrounders" ql then .listAllRounders
  else if strIn "players" ql then .mixedPlayers
  else .fallback

/-- One step of stable descending insertion: a later element `p` is placed
after every already-placed element whose key is strictly greater, and before
the first element whose key is not greater — exactly the placement Python's
stable `sorted(key=key, reverse=True)` gives elements processed
left-to-right. -/
def insDesc {κ : Type} (lt : κ → κ → Bool) (key : Player → κ) (p : Player) :
    List Player → List Player
  | [] => [p]
  | q :: qs => if lt (key p) (key q) then q :: insDesc lt key p qs
               else p :: q :: qs

/-- Stable descending sort by `key`, the model of Python
`sorted(l, key=key, reverse=True)`. -/
def sortDesc {κ : Type} (lt : κ → κ → Bool) (key : Player → κ)
    (l : List Player) : List Player :=
  l.foldr (insDesc lt key) []

/-- Strict order on one integer key, Python `<` on ints. -/
def intLt (a b : Int) : Bool := decide (a < b)

/-- Strict lexicographic order on an integer pair key, Python `<` on
2-tuples of ints. -/
def lexLt (a b : Int × Int) : Bool :=
  decide (a.1 < b.1 ∨ (a.1 = b.1 ∧ a.2 < b.2))

/-- Case-insensitive role filter `p['role'].lower() == r` used throughout
the handlers of chatbot_routes.py. -/
def roleIs (p : Player) (r : String) : Bool := lowerStr p.role == r

/-- The batsman pool of the best-batsman handler
(chatbot_routes.py line 175). -/
def batsmenOf (players : List Player) : List Player :=
  players.filter (fun p => roleIs p "batsman")

/-- Sort key of the best-batsman handler (chatbot_routes.py line 176):
total runs with base price as tie-break. -/
def batKey (p : Player) : Int × Int := (p.total_runs, p.base_price)

/-- The best-batsman selection of chatbot_routes.py lines 172-182: filter
to batsmen, stable descending sort by (total_runs, base_price), take the
top record; `none` when no specialized batsman exists. -/
def best_batsman (players : List Player) : Option Player :=
  (sortDesc lexLt batKey (batsmenOf players)).head?

/-- One greedy pass of the best-team builder (chatbot_routes.py
lines 307-337): walk the role pool in sorted order, stop as soon as the
team has `cap` members, and append a player only when the name was not
already chosen. -/
def addUpTo (cap : Nat) : List Player → List Player × List String →
    List Player × List String
  | [], st => st
  | p :: ps, (team, ids) =>
    if cap ≤ team.length then (team, ids)
    else if p.name ∈ ids then addUpTo cap ps (team, ids)
    else addUpTo cap ps (team ++ [p], p.name :: ids)

/-- The final filling pass of the best-team builder (chatbot_routes.py
lines 342-346): append remaining players up to the cap with no further
name check (the code filtered the pool once, before this loop). -/
def addAll (cap : Nat) : List Player → List Player × List String →
    List Player × List String
  | [], st => st
  | p :: ps, (team, ids) =>
    if cap ≤ team.length then (team, ids)
    else addAll cap ps (team ++ [p], p.name :: ids)

/-- All players sorted by base price descending
(chatbot_routes.py line 295). -/
def teamSortedPool (players : List Player) : List Player :=
  sortDesc intLt (fun p => p.base_price) players

/-- The batsman pool of the team builder (chatbot_routes.py line 298). -/
def teamBatsmen (players : List Player) : List Player :=
  (teamSortedPool players).filter (fun p => roleIs p "batsman")

/-- The bowler pool of the team builder (chatbot_routes.py line 299). -/
def teamBowlers (players : List Player) : List Player :=
  (teamSortedPool players).filter (fun p => roleIs p "bowler")

/-- The all-rounder pool of the team builder (chatbot_routes.py line 300). -/
def teamAllRounders (players : List Player) : List Player :=
  (teamSortedPool players).filter (fun p => roleIs p "all-rounder")

/-- Team state (chosen players, chosen names) after the first three greedy
passes of chatbot_routes.py lines 303-328: up to 5 batsmen, up to 7 total
with all-rounders, up to 11 total with bowlers. -/
def teamS3 (players : List Player) : List Player × List String :=
  addUpTo 11 (teamBowlers players)
    (addUpTo 7 (teamAllRounders players)
      (addUpTo 5 (teamBatsmen players) ([], [])))

/-- Team state after the fourth pass (chatbot_routes.py lines 331-337):
while still under 11 and all-rounders exist, fill from unused
all-rounders. -/
def teamStage (players : List Player) : List Player × List String :=
  if (teamS3 players).1.length < 11 ∧ teamAllRounders players ≠ [] then
    addUpTo 11 (teamAllRounders players) (teamS3 players)
  else teamS3 players

/-- The pool of the final filling pass (chatbot_routes.py line 340):
players whose name was not chosen in the role-driven passes, computed
once, before the final loop runs. -/
def teamRemaining (players : List Player) : List Player :=
  (teamSortedPool players).filter (fun p => decide (p.name ∉ (teamStage players).2))

/-- The best-team selection of chatbot_routes.py lines 293-346: the four
role-driven greedy passes followed by the final filling pass up to 11. -/
def build_best_team (players : List Player) : List Player :=
  (addAll 11 (teamRemaining players) (teamStage players)).1

/-- A raw field value as it can arrive from storage metadata or a CSV
cell: None, a float NaN, an int, a float, or a string. -/
inductive RawVal where
  | vNone
  | vNaN
  | vInt (n : Int)
  | vFloat (q : Rat)
  | vStr (s : String)
  deriving DecidableEq

/-- A Python numeric value: an int or a float. -/
inductive PyNum where
  | pint (n : Int)
  | pfloat (q : Rat)
  deriving DecidableEq

/-- The `convert_type` argument of `safe_convert`: `int` or `float`. -/
inductive ConvTarget where
  | toIntT
  | toFloatT
  deriving DecidableEq

/-- `pd.isna(value)`: true for NaN and for None. -/
def pdIsna : RawVal → Bool
  | .vNone => true
  | .vNaN => true
  | _ => false

/-- Python `int(float)` truncates toward zero. -/
def pyTruncRat (q : Rat) : Int := if 0 ≤ q then ⌊q⌋ else ⌈q⌉

/-- Accumulate decimal digits; any non-digit character fails the parse. -/
def decDigitsAux : List Char → Nat → Option Nat
  | [], acc => some acc
  | c :: cs, acc =>
    if c.isDigit then decDigitsAux cs (acc * 10 + (c.toNat - 48)) else none

/-- Parse a non-empty all-digit character list as a natural number. -/
def decNat? (l : List Char) : Option Nat :=
  if l.isEmpty then none else decDigitsAux l 0

/-- Parse an optionally minus-signed digit list as an integer, the model of
Python `int(str)` on a trimmed literal. -/
def decInt? : List Char → Option Int
  | '-' :: rest => (decNat? rest).map (fun n => -(n : Int))
  | l => (decNat? l).map (fun n => (n : Int))

/-- Unsigned decimal parsing for Python `float(str)`: integer digits with
an optional fractional part. -/
def pyFloatOfStrCore (l : List Char) : Option Rat :=
  match l.splitOn '.' with
  | [a] => (decNat? a).map (fun n => (n : Rat))
  | [a, b] =>
    match decNat? a, decNat? b with
    | some n, some f => some ((n : Rat) + (f : Rat) / ((10 : Rat) ^ b.length))
    | _, _ => none
  | _ => none

/-- Python decimal string parsing for `float(str)`: optional leading minus,
then an unsigned decimal literal. -/
def pyFloatOfStr (s : String) : Option Rat :=
  match s.data with
  | '-' :: rest => (pyFloatOfStrCore rest).map (fun q => -q)
  | l => pyFloatOfStrCore l

/-- Python `int(value)`: raises (`.error`) on None, NaN and non-integer
strings; truncates floats toward zero. -/
def pyInt : RawVal → Except Unit Int
  | .vNone => .error ()
  | .vNaN => .error ()
  | .vInt n => .ok n
  | .vFloat q => .ok (pyTruncRat q)
  | .vStr s => match decInt? s.data with
    | some n => .ok n
    | none => .error ()

/-- Python `float(value)`: raises on None, NaN (via the isna guard in the
caller this case is unreachable, but bare `float(nan)` succeeds as NaN —
modeled here as an error since NaN has no Rat value) and non-numeric
strings. -/
def pyFloat : RawVal → Except Unit Rat
  | .vNone => .error ()
  | .vNaN => .error ()
  | .vInt n => .ok (n : Rat)
  | .vFloat q => .ok q
  | .vStr s => match pyFloatOfStr s with
    | some q => .ok q
    | none => .error ()

/-- The attempted conversion `convert_type(value)` of `safe_convert`. -/
def pyConvert : ConvTarget → RawVal → Except Unit PyNum
  | .toIntT, v => (pyInt v).map .pint
  | .toFloatT, v => (pyFloat v).map .pfloat

/-- `safe_convert` from src/db/chroma_db.py lines 40-47: return `default`
when the value is NaN or None, otherwise attempt the conversion and return
`default` on any `ValueError`/`TypeError`. -/
def safe_convert (v : RawVal) (t : ConvTarget) (default : PyNum) : PyNum :=
  if pdIsna v = true ∨ v = .vNone then default
  else match pyConvert t v with
    | .ok n => n
    | .error _ => default

/-- A Python metadata dict: an association list from field names to raw
values, as handed back by `collection.get()['metadatas']`. -/
abbrev Meta : Type := List (String × RawVal)

/-- Python `d.get(k, dflt)`. -/
def dictGet (d : Meta) (k : String) (dflt : RawVal) : RawVal :=
  match d.find? (fun kv => kv.1 == k) with
  | some kv => kv.2
  | none => dflt

/-- Python `d[k] = v`: replace in place, or append a new key. -/
def dictSet (d : Meta) (k : String) (v : RawVal) : Meta :=
  if (List.find? (fun kv => kv.1 == k) d).isSome then
    d.map (fun kv => if kv.1 == k then (kv.1, v) else kv)
  else d ++ [(k, v)]

/-- One int-coercion statement pair of chatbot_routes.py lines 96-122:
`player[keyL] = int(player.get(keyL, player.get(keyT, 0)))` followed by
`player[keyT] = player[keyL]`; a conversion error aborts with the dict
unchanged by this step. -/
def stepInt (keyL keyT : String) (p : Meta) : Except Meta Meta :=
  match pyInt (dictGet p keyL (dictGet p keyT (.vInt 0))) with
  | .ok n => .ok (dictSet (dictSet p keyL (.vInt n)) keyT (.vInt n))
  | .error _ => .error p

/-- The float-coercion pair for overs_bowled
(chatbot_routes.py lines 124-125). -/
def stepFloat (keyL keyT : String) (p : Meta) : Except Meta Meta :=
  match pyFloat (dictGet p keyL (dictGet p keyT (.vInt 0))) with
  | .ok q => .ok (dictSet (dictSet p keyL (.vFloat q)) keyT (.vFloat q))
  | .error _ => .error p

/-- One text field pair of chatbot_routes.py lines 108-115: copy the value
under both key casings, no conversion, cannot raise. -/
def stepStr (keyL keyT : String) (p : Meta) : Meta :=
  let v := dictGet p keyL (dictGet p keyT (.vStr ""))
  dictSet (dictSet p keyL v) keyT v

/-- The per-player try-block of chatbot_routes.py lines 93-127: coercions
run in source order, and the first `ValueError`/`TypeError` is caught by
the surrounding `except`, leaving the record as mutated so far — the
failing field and all later fields keep their raw values. -/
def normalize_player_fields (p : Meta) : Meta :=
  match (do
    let p1 ← stepInt "total_runs" "Total Runs" p
    let p2 ← stepInt "wickets" "Wickets" p1
    let p3 ← stepInt "base_price" "Base Price" p2
    let p4 := stepStr "name" "Name" p3
    let p5 := stepStr "category" "Category" p4
    let p6 := stepStr "role" "Role" p5
    let p7 ← stepInt "runs_conceded" "Runs Conceded" p6
    let p8 ← stepInt "innings_played" "Innings Played" p7
    stepFloat "overs_bowled" "Overs Bowled" p8 : Except Meta Meta) with
  | .ok q => q
  | .error q => q

/-- `get_gemini_response` from src/services/gemini_service.py lines 20-48:
`configured` is whether `model` is non-None; `svc` is the outcome of the
single `model.generate_content(prompt).text` call, `none` when it throws.
Unconfigured and throwing are both mapped to `none` ("no enhancement"). -/
def get_gemini_response (configured : Bool) (svc : Option String) :
    Option String :=
  if ¬configured then none
  else match svc with
    | some text => some text
    | none => none

/-- Thousands-separated rendering of the digits of a number, reversed
input, commas inserted after every third digit. -/
def commaRev : Nat → List Char → List Char
  | _, [] => []
  | i, c :: cs =>
    if i % 3 = 0 ∧ i ≠ 0 then c :: ',' :: commaRev (i + 1) cs
    else c :: commaRev (i + 1) cs

/-- Python `format(n, ',')` on an int: thousands separators. -/
def intComma (n : Int) : String :=
  (if n < 0 then "-" else "") ++
    String.mk ((commaRev 0 (toString n.natAbs).data).reverse)

/-- Display of a stored float; claims never depend on this rendering. -/
def ratText (q : Rat) : String :=
  toString q.num ++ (if q.den = 1 then "" else "/" ++ toString q.den)

/-- The Python argument actually handed to `format_player_info`: the
handlers pass a single metadata dict, but the fallback paths of
chatbot_routes.py lines 587 and 596 pass `results['metadatas'][0]`,
which is the whole per-query LIST of metadata dicts. -/
inductive PyArg where
  | dict (p : Player)
  | pylist (ps : List Player)
  deriving DecidableEq

/-- The fixed single-record template of `format_player_info`
(src/services/player_service.py lines 128-145). -/
def format_player_text (p : Player) : String :=
  "\n    Player: " ++ p.name ++
  "\n    University: " ++ p.university ++
  "\n    Category: " ++ p.category ++
  "\n    Role: " ++ p.role ++
  "\n    Base Price: ₹" ++ intComma p.base_price ++
  "\n    Stats:" ++
  "\n      - Total Runs: " ++ toString p.total_runs ++
  "\n      - Wickets: " ++ toString p.wickets ++
  "\n      - Innings Played: " ++ toString p.innings_played ++
  "\n      - Overs Bowled: " ++ ratText p.overs_bowled ++
  "\n      - Runs Conceded: " ++ toString p.runs_conceded ++
  "\n\n    " ++ p.name ++ " is a " ++ p.role ++ " who has scored " ++
  toString p.total_runs ++ " runs and taken " ++ toString p.wickets ++
  " wickets.\n    "

/-- `format_player_info` from src/services/player_service.py lines 128-145
on its actual Python argument: subscripting a dict by field name renders
the template; subscripting a LIST with the string key `name` raises a
`TypeError` (`.error`). -/
def format_player_info : PyArg → Except Unit String
  | .dict p => .ok (format_player_text p)
  | .pylist _ => .error ()

/-- The external state the free-form fallback of `query_chatbot` depends
on: whether the Gemini model is configured, the outcome of the
query-analysis `model.generate_content` call (`none` = raised), and the
outcome of the enhancement call inside `get_gemini_response`. -/
structure FallbackEnv where
  configured : Bool
  analysis : Option String
  svc : Option String
  deriving DecidableEq

/-- The free-form fallback of `query_chatbot`
(chatbot_routes.py lines 567-604). `search k` models
`collection.query(query_texts=[query], n_results=k)['metadatas'][0]`.
When the model is configured, the inner try first runs the analysis call
(a throw is caught and falls through), then the top-3 search: on results,
the enhancement response is returned when present, otherwise
`format_player_info` is applied to the metadata LIST, whose `TypeError`
the inner except also catches. The basic top-1 search then formats (again
on the LIST — an uncaught `TypeError` reaches the outer handler) or
returns the not-found reply. -/
def free_form_fallback (env : FallbackEnv) (search : Nat → List Player) :
    String :=
  let innerBlock : Option String :=
    if env.configured then
      match env.analysis with
      | none => none
      | some _ =>
        let r3 := search 3
        if r3 ≠ [] then
          match get_gemini_response env.configured env.svc with
          | some resp => some resp
          | none =>
            match format_player_info (.pylist r3) with
            | .ok s => some s
            | .error _ => none
        else none
    else none
  match innerBlock with
  | some s => s
  | none =>
    let r1 := search 1
    if r1 ≠ [] then
      match format_player_info (.pylist r1) with
      | .ok s => s
      | .error _ => processingErrorMsg
    else notFoundMsg

/-- One row of the players CSV (columns of player_service.py lines 22-26). -/
structure CsvRow where
  name : String
  university : String
  category : String
  total_runs : Int
  balls_faced : Int
  innings_played : Int
  wickets : Int
  overs_bowled : Rat
  runs_conceded : Int
  base_price : Int
  deriving DecidableEq

/-- One entry of the `players` list of an update payload
(player_service.py lines 58-74); an empty `name` models the falsy
missing-name case that `_update_single_player` skips. -/
structure PlayerPayload where
  name : String
  category : String
  basePrice : Int
  runs : Int
  ballsFaced : Int
  inningsPlayed : Int
  wickets : Int
  oversBowled : Rat
  runsConceded : Int
  deriving DecidableEq

/-- The in-place column updates of `_update_single_player` for an existing
row (player_service.py lines 81-88): every tournament column, Category and
Base Price are overwritten; Name and University are untouched. -/
def applyUpdate (r : CsvRow) (e : PlayerPayload) : CsvRow :=
  { r with
    total_runs := e.runs
    balls_faced := e.ballsFaced
    innings_played := e.inningsPlayed
    wickets := e.wickets
    overs_bowled := e.oversBowled
    runs_conceded := e.runsConceded
    category := e.category
    base_price := e.basePrice }

/-- The fresh row built for a new player
(player_service.py lines 92-103): University defaults to empty. -/
def newRow (e : PlayerPayload) : CsvRow :=
  { name := e.name
    university := ""
    category := e.category
    total_runs := e.runs
    balls_faced := e.ballsFaced
    innings_played := e.inningsPlayed
    wickets := e.wickets
    overs_bowled := e.oversBowled
    runs_conceded := e.runsConceded
    base_price := e.basePrice }

/-- The bulk loop of `update_csv_data` over `player_data['players']`
(player_service.py lines 42-45) calling `_update_single_player`
(lines 55-113). State: (the caller's in-memory dataframe, the file
contents on disk). An existing-name update mutates the shared dataframe
in place and writes it; a new name is concatenated onto a LOCAL rebinding
only, so the caller's dataframe is unchanged while the file is
overwritten with original-plus-this-one-row; a nameless entry is skipped
with no write. -/
def update_players_loop (df file : List CsvRow) :
    List PlayerPayload → List CsvRow × List CsvRow
  | [] => (df, file)
  | e :: es =>
    if e.name = "" then update_players_loop df file es
    else if df.any (fun r => r.name == e.name) then
      update_players_loop
        (df.map (fun r => if r.name == e.name then applyUpdate r e else r))
        (df.map (fun r => if r.name == e.name then applyUpdate r e else r)) es
    else update_players_loop df (df ++ [newRow e]) es

/-- The file contents after `update_csv_data` ran the `players` branch
(player_service.py lines 42-45) on a CSV whose prior contents were `csv`. -/
def update_csv_data_players (csv : List CsvRow) (es : List PlayerPayload) :
    List CsvRow :=
  (update_players_loop csv csv es).2

/-- The net per-row effect of a payload sequence: each matching named,
non-empty entry overwrites the row's updated columns, in order. -/
def upd_result (es : List PlayerPayload) (r : CsvRow) : CsvRow :=
  es.foldl
    (fun r e => if e.name ≠ "" ∧ e.name = r.name then applyUpdate r e else r) r

/-- Example batsman A of spec §8 item 7: runs 120, wickets 1, price 500. -/
def exBatA : Player :=
  ⟨"A", "", "", "Batsman", 120, 0, 0, 1, 0, 0, 500⟩

/-- Example batsman B of spec §8 item 7: runs 80, wickets 2, price 900. -/
def exBatB : Player :=
  ⟨"B", "", "", "Batsman", 80, 0, 0, 2, 0, 0, 900⟩

/-- Tie-break example of spec §8 item 8: runs 100, price 300. -/
def exTieLow : Player :=
  ⟨"T1", "", "", "Batsman", 100, 0, 0, 0, 0, 0, 300⟩

/-- Tie-break example of spec §8 item 8: runs 100, price 700. -/
def exTieHigh : Player :=
  ⟨"T2", "", "", "Batsman", 100, 0, 0, 0, 0, 0, 700⟩

/-- A three-player concrete record set for team-selection evaluation. -/
def exTeamIn : List Player :=
  [⟨"P1", "", "", "Batsman", 120, 0, 0, 1, 0, 0, 500⟩,
   ⟨"P2", "", "", "Bowler", 10, 0, 0, 9, 0, 0, 900⟩,
   ⟨"P3", "", "", "Wicketkeeper", 60, 0, 0, 4, 0, 0, 700⟩]

/-- Fallback environment with the Gemini model unconfigured. -/
def envUnconfigured : FallbackEnv := ⟨false, none, none⟩

/-- A search oracle whose top-3 lookup has a result but whose top-1 lookup
does not. -/
def searchOnlyTop3 : Nat → List Player :=
  fun k => if k = 3 then [exBatA] else []

/-- A raw metadata dict whose total_runs value is a non-numeric string and
whose wickets value is a numeric string. -/
def badMeta : Meta := [("total_runs", .vStr "abc"), ("wickets", .vStr "7")]

/-- A raw metadata dict with every numeric field missing. -/
def bareMeta : Meta := [("name", .vStr "X")]

/-- The single pre-existing CSV row, named "A". -/
def rowA : CsvRow := ⟨"A", "Uni", "Cat", 10, 20, 2, 1, 0, 5, 100⟩

/-- A payload for a new player "B". -/
def payB : PlayerPayload := ⟨"B", "CatB", 50, 1, 2, 1, 0, 0, 0⟩

/-- A payload for a new player "C". -/
def payC : PlayerPayload := ⟨"C", "CatC", 60, 2, 3, 1, 0, 0, 0⟩

/-- A payload updating the existing player "A". -/
def payAupd : PlayerPayload := ⟨"A", "CatA", 70, 3, 4, 1, 0, 0, 0⟩

theorem mem_insDesc {κ : Type} (lt : κ → κ → Bool) (key : Player → κ)
    (p x : Player) : ∀ l : List Player,
    (x ∈ insDesc lt key p l ↔ x = p ∨ x ∈ l)
  | [] => by simp [insDesc]
  | q :: qs => by
    simp only [insDesc]
    split
    · simp only [List.mem_cons, mem_insDesc lt key p x qs]
      tauto
    · simp only [List.mem_cons]

theorem insDesc_perm {κ : Type} (lt : κ → κ → Bool) (key : Player → κ)
    (p : Player) : ∀ l : List Player,
    (insDesc lt key p l).Perm (p :: l)
  | [] => by simp [insDesc]
  | q :: qs => by
    simp only [insDesc]
    split
    · exact ((insDesc_perm lt key p qs).cons q).trans (List.Perm.swap p q qs)
    · exact List.Perm.refl _

theorem sortDesc_perm {κ : Type} (lt : κ → κ → Bool) (key : Player → κ) :
    ∀ l : List Player, (sortDesc lt key l).Perm l
  | [] => List.Perm.refl _
  | p :: ps => by
    simpa [sortDesc] using
      (insDesc_perm lt key p (sortDesc lt key ps)).trans
        ((sortDesc_perm lt key ps).cons p)

theorem mem_sortDesc {κ : Type} (lt : κ → κ → Bool) (key : Player → κ)
    (x : Player) (l : List Player) :
    x ∈ sortDesc lt key l ↔ x ∈ l :=
  (sortDesc_perm lt key l).mem_iff

/-- Head of an insertion stays maximal: if no element of `l` beats `l`'s
head, then no element of `insDesc lt key p l` beats its head, for a strict
order `lt` that is irreflexive, asymmetric and negatively transitive. -/
theorem insDesc_head_max {κ : Type} (lt : κ → κ → Bool) (key : Player → κ)
    (hirr : ∀ a, lt a a = false)
    (hasym : ∀ a b, lt a b = true → lt b a = false)
    (hneg : ∀ a b c, lt a b = false → lt b c = false → lt a c = false)
    (p : Player) :
    ∀ l : List Player,
      (∀ h ∈ l.head?, ∀ x ∈ l, lt (key h) (key x) = false) →
      ∀ h ∈ (insDesc lt key p l).head?, ∀ x ∈ insDesc lt key p l,
        lt (key h) (key x) = false
  | [], _ => by
    simp only [insDesc, List.head?, Option.mem_def, Option.some.injEq,
      List.mem_singleton]
    rintro h rfl x rfl
    exact hirr _
  | q :: qs, hl => by
    simp only [insDesc]
    split
    · rename_i hpq
      simp only [List.head?, Option.mem_def, Option.some.injEq]
      rintro h rfl x hx
      rcases List.mem_cons.mp hx with rfl | hx'
      · exact hirr _
      · rcases (mem_insDesc lt key p x qs).mp hx' with rfl | hxqs
        · exact hasym _ _ hpq
        · exact hl q (by simp) x (by simp [hxqs])
    · rename_i hpq
      simp only [List.head?, Option.mem_def, Option.some.injEq]
      rintro h rfl x hx
      have hpq' : lt (key p) (key q) = false := by
        revert hpq
        cases lt (key p) (key q) <;> simp
      rcases List.mem_cons.mp hx with rfl | hx'
      · exact hirr _
      · rcases List.mem_cons.mp hx' with rfl | hxqs
        · exact hpq'
        · exact hneg _ _ _ hpq' (hl q (by simp) x (by simp [hxqs]))

/-- The head of a stable descending sort is key-maximal. -/
theorem sortDesc_head_max {κ : Type} (lt : κ → κ → Bool) (key : Player → κ)
    (hirr : ∀ a, lt a a = false)
    (hasym : ∀ a b, lt a b = true → lt b a = false)
    (hneg : ∀ a b c, lt a b = false → lt b c = false → lt a c = false) :
    ∀ l : List Player, ∀ h ∈ (sortDesc lt key l).head?,
      ∀ x ∈ sortDesc lt key l, lt (key h) (key x) = false
  | [] => by simp [sortDesc]
  | p :: ps => by
    have ih := sortDesc_head_max lt key hirr hasym hneg ps
    simpa [sortDesc] using
      insDesc_head_max lt key hirr hasym hneg p (sortDesc lt key ps)
        (by simpa [sortDesc] using ih)

theorem lexLt_irrefl (a : Int × Int) : lexLt a a = false := by
  simp [lexLt]

theorem lexLt_asymm (a b : Int × Int) (h : lexLt a b = true) :
    lexLt b a = false := by
  simp only [lexLt, decide_eq_true_eq, decide_eq_false_iff_not] at h ⊢
  omega

theorem lexLt_neg_trans (a b c : Int × Int) (hab : lexLt a b = false)
    (hbc : lexLt b c = false) : lexLt a c = false := by
  simp only [lexLt, decide_eq_false_iff_not] at hab hbc ⊢
  omega

theorem lexLt_total (a b : Int × Int) (h : lexLt a b = false) :
    lexLt b a = true ∨ a = b := by
  simp only [lexLt, decide_eq_false_iff_not, decide_eq_true_eq] at h ⊢
  rcases a with ⟨a1, a2⟩
  rcases b with ⟨b1, b2⟩
  simp only [Prod.mk.injEq]
  omega

theorem addUpTo_length (cap : Nat) :
    ∀ (ps t : List Player) (ids : List String), t.length ≤ cap →
      (addUpTo cap ps (t, ids)).1.length ≤ cap
  | [], _, _, h => h
  | p :: ps, t, ids, h => by
    by_cases hcap : cap ≤ t.length
    · simpa only [addUpTo, if_pos hcap] using h
    · by_cases hmem : p.name ∈ ids
      · simp only [addUpTo, if_neg hcap, if_pos hmem]
        exact addUpTo_length cap ps t ids h
      · simp only [addUpTo, if_neg hcap, if_neg hmem]
        exact addUpTo_length cap ps (t ++ [p]) (p.name :: ids)
          (by simp only [List.length_append, List.length_singleton]; omega)

theorem addUpTo_extends (cap : Nat) :
    ∀ (ps t : List Player) (ids : List String),
      ∃ l, (addUpTo cap ps (t, ids)).1 = t ++ l
  | [], t, _ => ⟨[], by simp [addUpTo]⟩
  | p :: ps, t, ids => by
    by_cases hcap : cap ≤ t.length
    · exact ⟨[], by simp [addUpTo, if_pos hcap]⟩
    · by_cases hmem : p.name ∈ ids
      · simp only [addUpTo, if_neg hcap, if_pos hmem]
        exact addUpTo_extends cap ps t ids
      · simp only [addUpTo, if_neg hcap, if_neg hmem]
        obtain ⟨l, hl⟩ := addUpTo_extends cap ps (t ++ [p]) (p.name :: ids)
        exact ⟨p :: l, by simp [hl]⟩

theorem addUpTo_fixed (cap : Nat) :
    ∀ (ps t : List Player) (ids : List String),
      (addUpTo cap ps (t, ids)).1 = t → addUpTo cap ps (t, ids) = (t, ids)
  | [], _, _, _ => rfl
  | p :: ps, t, ids, h => by
    by_cases hcap : cap ≤ t.length
    · simp only [addUpTo, if_pos hcap]
    · by_cases hmem : p.name ∈ ids
      · simp only [addUpTo, if_neg hcap, if_pos hmem] at h ⊢
        exact addUpTo_fixed cap ps t ids h
      · exfalso
        simp only [addUpTo, if_neg hcap, if_neg hmem] at h
        obtain ⟨l, hl⟩ := addUpTo_extends cap ps (t ++ [p]) (p.name :: ids)
        rw [hl] at h
        have := congrArg List.length h
        simp only [List.length_append, List.length_singleton] at this
        omega

theorem addUpTo_names (cap : Nat) :
    ∀ (ps t : List Player) (ids : List String),
      (t.map Player.name).Nodup → (∀ n ∈ t.map Player.name, n ∈ ids) →
      ((addUpTo cap ps (t, ids)).1.map Player.name).Nodup ∧
        ∀ n ∈ (addUpTo cap ps (t, ids)).1.map Player.name,
          n ∈ (addUpTo cap ps (t, ids)).2
  | [], _, _, h1, h2 => ⟨h1, h2⟩
  | p :: ps, t, ids, h1, h2 => by
    by_cases hcap : cap ≤ t.length
    · simp only [addUpTo, if_pos hcap]
      exact ⟨h1, h2⟩
    · by_cases hmem : p.name ∈ ids
      · simp only [addUpTo, if_neg hcap, if_pos hmem]
        exact addUpTo_names cap ps t ids h1 h2
      · simp only [addUpTo, if_neg hcap, if_neg hmem]
        apply addUpTo_names cap ps (t ++ [p]) (p.name :: ids)
        · simp only [List.map_append, List.map_cons, List.map_nil,
            List.nodup_append, List.nodup_cons, List.nodup_nil]
          refine ⟨h1, by simp, ?_⟩
          intro a ha hb
          simp only [List.mem_singleton] at hb
          subst hb
          exact hmem (h2 _ ha)
        · intro n hn
          simp only [List.map_append, List.map_cons, List.map_nil,
            List.mem_append, List.mem_singleton] at hn
          rcases hn with hn | hn
          · exact List.mem_cons_of_mem _ (h2 _ hn)
          · simp [hn]

theorem addAll_team (cap : Nat) :
    ∀ (ps t : List Player) (ids : List String),
      (addAll cap ps (t, ids)).1 = t ++ ps.take (cap - t.length)
  | [], t, _ => by simp [addAll]
  | p :: ps, t, ids => by
    by_cases hcap : cap ≤ t.length
    · have h0 : cap - t.length = 0 := by omega
      simp [addAll, if_pos hcap, h0]
    · have h1 : cap - t.length = (cap - (t ++ [p]).length) + 1 := by
        simp only [List.length_append, List.length_singleton]; omega
      simp only [addAll, if_neg hcap]
      rw [addAll_team cap ps (t ++ [p]) (p.name :: ids), h1,
        List.take_succ_cons]
      simp

theorem addUpTo_empty (cap : Nat) (ps : List Player)
    (st : List Player × List String) (h : (addUpTo cap ps st).1 = []) :
    st.1 = [] ∧ addUpTo cap ps st = st := by
  obtain ⟨t, ids⟩ := st
  obtain ⟨l, hl⟩ := addUpTo_extends cap ps t ids
  rw [hl] at h
  obtain ⟨ht, hlnil⟩ := List.append_eq_nil.mp h
  exact ⟨ht, addUpTo_fixed cap ps t ids (by rw [hl, hlnil, List.append_nil])⟩

theorem teamS3_names (players : List Player) :
    ((teamS3 players).1.map Player.name).Nodup ∧
      ∀ n ∈ (teamS3 players).1.map Player.name, n ∈ (teamS3 players).2 := by
  have h1 := addUpTo_names 5 (teamBatsmen players) [] [] (by simp) (by simp)
  have h2 := addUpTo_names 7 (teamAllRounders players) _ _ h1.1 h1.2
  exact addUpTo_names 11 (teamBowlers players) _ _ h2.1 h2.2

theorem teamS3_length (players : List Player) :
    (teamS3 players).1.length ≤ 11 := by
  have l1 := addUpTo_length 5 (teamBatsmen players) [] [] (by simp)
  have l2 := addUpTo_length 7 (teamAllRounders players)
    (addUpTo 5 (teamBatsmen players) ([], [])).1
    (addUpTo 5 (teamBatsmen players) ([], [])).2
    (le_trans l1 (by norm_num))
  exact addUpTo_length 11 (teamBowlers players)
    (addUpTo 7 (teamAllRounders players)
      (addUpTo 5 (teamBatsmen players) ([], []))).1
    (addUpTo 7 (teamAllRounders players)
      (addUpTo 5 (teamBatsmen players) ([], []))).2
    (le_trans l2 (by norm_num))

theorem teamS3_empty (players : List Player) (h : (teamS3 players).1 = []) :
    teamS3 players = ([], []) := by
  unfold teamS3 at h ⊢
  obtain ⟨h3, e3⟩ := addUpTo_empty 11 (teamBowlers players) _ h
  obtain ⟨h2, e2⟩ := addUpTo_empty 7 (teamAllRounders players) _ h3
  obtain ⟨h1, e1⟩ := addUpTo_empty 5 (teamBatsmen players) _ h2
  rw [e3, e2, e1]

theorem teamStage_names (players : List Player) :
    ((teamStage players).1.map Player.name).Nodup ∧
      ∀ n ∈ (teamStage players).1.map Player.name, n ∈ (teamStage players).2 := by
  unfold teamStage
  split
  · exact addUpTo_names 11 (teamAllRounders players) _ _
      (teamS3_names players).1 (teamS3_names players).2
  · exact teamS3_names players

theorem teamStage_length (players : List Player) :
    (teamStage players).1.length ≤ 11 := by
  unfold teamStage
  split
  · exact addUpTo_length 11 (teamAllRounders players) _ _ (teamS3_length players)
  · exact teamS3_length players

theorem teamStage_empty (players : List Player)
    (h : (teamStage players).1 = []) : (teamStage players).2 = [] := by
  unfold teamStage at h ⊢
  by_cases hc : (teamS3 players).1.length < 11 ∧ teamAllRounders players ≠ []
  · rw [if_pos hc] at h ⊢
    obtain ⟨h1, e1⟩ := addUpTo_empty 11 (teamAllRounders players) _ h
    rw [e1, teamS3_empty players h1]
  · rw [if_neg hc] at h ⊢
    rw [teamS3_empty players h]

theorem build_best_team_eq (players : List Player) :
    build_best_team players =
      (teamStage players).1 ++
        (teamRemaining players).take (11 - (teamStage players).1.length) := by
  unfold build_best_team
  exact addAll_team 11 (teamRemaining players) _ _

theorem teamSortedPool_perm (players : List Player) :
    (teamSortedPool players).Perm players :=
  sortDesc_perm intLt (fun p => p.base_price) players

theorem teamSortedPool_names_nodup (players : List Player)
    (hnd : (players.map Player.name).Nodup) :
    ((teamSortedPool players).map Player.name).Nodup :=
  (((teamSortedPool_perm players).map Player.name).nodup_iff).mpr hnd

theorem teamRemaining_not_chosen (players : List Player) (x : Player)
    (hx : x ∈ teamRemaining players) : x.name ∉ (teamStage players).2 := by
  unfold teamRemaining at hx
  have := (List.mem_filter.mp hx).2
  simpa using this

/-- C2: best-team selection — built greedily over the base_price-descending
order (up to 5 batsman slots, then all-rounders to 7, bowlers to 11, unused
all-rounders, then any remaining record; this order is the definition of
`teamS3`/`teamStage`/`build_best_team`) — returns a team with no duplicate
names, of size at most 11, which is empty only if the input record set is
empty. Input record sets carry pairwise distinct names, `name` being the
identity key of the data model. -/
theorem c2_team_guarantees (players : List Player)
    (hnd : (players.map Player.name).Nodup) :
    ((build_best_team players).map Player.name).Nodup ∧
      (build_best_team players).length ≤ 11 ∧
      (build_best_team players = [] → players = []) := by
  have hlen4 := teamStage_length players
  have hnames4 := teamStage_names players
  have heq := build_best_team_eq players
  have hremnd : ((teamRemaining players).map Player.name).Nodup := by
    have hsub : ((teamRemaining players).map Player.name).Sublist
        ((teamSortedPool players).map Player.name) :=
      (List.filter_sublist _).map Player.name
    exact (teamSortedPool_names_nodup players hnd).sublist hsub
  refine ⟨?_, ?_, ?_⟩
  · rw [heq, List.map_append, List.nodup_append]
    refine ⟨hnames4.1, ?_, ?_⟩
    · have hsub : (((teamRemaining players).take
          (11 - (teamStage players).1.length)).map Player.name).Sublist
          ((teamRemaining players).map Player.name) :=
        (List.take_sublist _ _).map Player.name
      exact hremnd.sublist hsub
    · intro n hn1 hn2
      simp only [List.mem_map] at hn2
      obtain ⟨x, hx, rfl⟩ := hn2
      have hxrem : x ∈ teamRemaining players :=
        List.mem_of_mem_take hx
      exact teamRemaining_not_chosen players x hxrem (hnames4.2 _ hn1)
  · rw [heq, List.length_append]
    have htake := List.length_take_le (11 - (teamStage players).1.length)
      (teamRemaining players)
    omega
  · intro hteam
    by_contra hne
    by_cases hstage : (teamStage players).1 = []
    · have hids := teamStage_empty players hstage
      have hrem : teamRemaining players = teamSortedPool players := by
        unfold teamRemaining
        rw [hids]
        apply List.filter_eq_self.mpr
        intro a _
        simp
      rw [heq, hstage, hrem] at hteam
      simp only [List.nil_append, List.length_nil, Nat.sub_zero] at hteam
      have hpool : teamSortedPool players ≠ [] := by
        intro h0
        apply hne
        have hlen := (teamSortedPool_perm players).length_eq
        rw [h0] at hlen
        exact List.eq_nil_of_length_eq_zero hlen.symm
      rcases hp : teamSortedPool players with _ | ⟨a, l⟩
      · exact hpool hp
      · rw [hp] at hteam
        simp [List.take_succ_cons] at hteam
    · rw [heq] at hteam
      exact hstage (List.append_eq_nil.mp hteam).1

theorem map_applyUpdate_names (df : List CsvRow) (e : PlayerPayload) :
    ((df.map (fun r => if r.name == e.name then applyUpdate r e else r)).map
      CsvRow.name) = df.map CsvRow.name := by
  rw [List.map_map]
  apply List.map_congr_left
  intro r _
  by_cases hr : r.name = e.name <;> simp [applyUpdate, hr]

theorem update_loop_names :
    ∀ (es : List PlayerPayload) (df file : List CsvRow),
      (update_players_loop df file es).1.map CsvRow.name = df.map CsvRow.name
  | [], _, _ => rfl
  | e :: es, df, file => by
    by_cases h0 : e.name = ""
    · simp only [update_players_loop, if_pos h0]
      exact update_loop_names es df file
    · by_cases hex : df.any (fun r => r.name == e.name) = true
      · rw [update_players_loop, if_neg h0, if_pos hex]
        rw [update_loop_names es _ _]
        exact map_applyUpdate_names df e
      · rw [update_players_loop, if_neg h0, if_neg hex]
        exact update_loop_names es df _

theorem update_loop_file :
    ∀ (es : List PlayerPayload) (df file : List CsvRow) (L : PlayerPayload),
      es.getLast? = some L → (∀ e ∈ es, e.name ≠ "") →
      (update_players_loop df file es).2 =
        if L.name ∈ df.map CsvRow.name then (update_players_loop df file es).1
        else (update_players_loop df file es).1 ++ [newRow L]
  | [], _, _, _, hL, _ => by simp at hL
  | [e], df, file, L, hL, hn => by
    have hLe : e = L := by simpa using hL
    subst hLe
    have hne : e.name ≠ "" := hn e (by simp)
    by_cases hex : df.any (fun r => r.name == e.name) = true
    · have hmem : e.name ∈ df.map CsvRow.name := by
        obtain ⟨r, hr, hb⟩ := List.any_eq_true.mp hex
        exact List.mem_map.mpr ⟨r, hr, beq_iff_eq.mp hb⟩
      rw [update_players_loop, if_neg hne, if_pos hex]
      simp only [update_players_loop, if_pos hmem]
    · have hmem : e.name ∉ df.map CsvRow.name := by
        intro hc
        obtain ⟨r, hr, hname⟩ := List.mem_map.mp hc
        exact hex (List.any_eq_true.mpr ⟨r, hr, beq_iff_eq.mpr hname⟩)
      rw [update_players_loop, if_neg hne, if_neg hex]
      simp only [update_players_loop, if_neg hmem]
  | e :: e' :: es, df, file, L, hL, hn => by
    have hL' : (e' :: es).getLast? = some L := by
      rwa [List.getLast?_cons_cons] at hL
    have hne : e.name ≠ "" := hn e (by simp)
    have hn' : ∀ x ∈ e' :: es, x.name ≠ "" :=
      fun x hx => hn x (List.mem_cons_of_mem _ hx)
    by_cases hex : df.any (fun r => r.name == e.name) = true
    · rw [update_players_loop, if_neg hne, if_pos hex]
      rw [update_loop_file (e' :: es) _ _ L hL' hn', map_applyUpdate_names]
    · rw [update_players_loop, if_neg hne, if_neg hex]
      exact update_loop_file (e' :: es) df _ L hL' hn'

theorem update_loop_df :
    ∀ (es : List PlayerPayload) (df file : List CsvRow),
      (update_players_loop df file es).1 = df.map (upd_result es)
  | [], df, _ => by
    simp only [update_players_loop, upd_result, List.foldl_nil]
    exact (List.map_id' df).symm
  | e :: es, df, file => by
    have hstep : ∀ r, upd_result (e :: es) r =
        upd_result es
          (if e.name ≠ "" ∧ e.name = r.name then applyUpdate r e else r) :=
      fun r => rfl
    by_cases h0 : e.name = ""
    · rw [update_players_loop, if_pos h0]
      rw [update_loop_df es df file]
      apply List.map_congr_left
      intro r _
      rw [hstep]
      simp [h0]
    · by_cases hex : df.any (fun r => r.name == e.name) = true
      · rw [update_players_loop, if_neg h0, if_pos hex]
        rw [update_loop_df es _ _, List.map_map]
        apply List.map_congr_left
        intro r _
        simp only [Function.comp]
        rw [hstep]
        by_cases hr : r.name = e.name
        · simp [hr, h0]
        · have hne2 : ¬ (e.name = r.name) := fun hc => hr hc.symm
          simp [hr, hne2]
      · rw [update_players_loop, if_neg h0, if_neg hex]
        rw [update_loop_df es df _]
        apply List.map_congr_left
        intro r hr
        rw [hstep]
        have hne2 : ¬ (e.name = r.name) := by
          intro hc
          exact hex (List.any_eq_true.mpr ⟨r, hr, beq_iff_eq.mpr hc.symm⟩)
        simp [hne2]

/-- C3: for all non-negative integers runs and wickets,
`classify_player_role` is total and deterministic (it is a function),
returns exactly one of Bowler, Batsman, All-Rounder, and follows the
order-sensitive rule with the Bowler check first: Bowler iff wickets > 5
and runs < 50; otherwise Batsman iff runs > 100 and wickets < 3; otherwise
All-Rounder. -/
theorem c3_classifier_cases (runs wickets : Int)
    (hruns : 0 ≤ runs) (hwick : 0 ≤ wickets) :
    (classify_player_role runs wickets = .Bowler ↔
      wickets > 5 ∧ runs < 50) ∧
    (classify_player_role runs wickets = .Batsman ↔
      ¬(wickets > 5 ∧ runs < 50) ∧ (runs > 100 ∧ wickets < 3)) ∧
    (classify_player_role runs wickets = .AllRounder ↔
      ¬(wickets > 5 ∧ runs < 50) ∧ ¬(runs > 100 ∧ wickets < 3)) ∧
    (classify_player_role runs wickets = .Bowler ∨
      classify_player_role runs wickets = .Batsman ∨
      classify_player_role runs wickets = .AllRounder) := by
  unfold classify_player_role
  split_ifs with h1 h2 <;> simp_all

theorem c3_classifier_cases_witness :
    (0 : Int) ≤ 10 ∧ (0 : Int) ≤ 6 ∧
      classify_player_role 10 6 = .Bowler ∧
      classify_player_role 120 1 = .Batsman ∧
      classify_player_role 120 6 = .AllRounder :=
  ⟨by decide, by decide,
    (c3_classifier_cases 10 6 (by decide) (by decide)).1.mpr (by decide),
    (c3_classifier_cases 120 1 (by decide) (by decide)).2.1.mpr (by decide),
    (c3_classifier_cases 120 6 (by decide) (by decide)).2.2.1.mpr (by decide)⟩

/-- C1: for queries reaching the keyword dispatch chain (past the greeting
check, the relevance filter and the name-search stage), the intent handlers
are tested in exactly the fixed order best batsman, best bowler, best
all-rounder (three spellings), best players, best team, list batsmen, list
bowlers, list all-rounders, mixed players, free-form fallback, first match
winning; a query matching an earlier and a later phrase is answered by the
earlier handler, and a query matching no fixed phrase but containing
"players" is routed to the mixed-player-types handler, never to the
fallback. -/
theorem c1_intent_order (ql : String) :
    (strIn "best batsman" ql = true → route_intent ql = .bestBatsman) ∧
    (strIn "best batsman" ql = false → strIn "best bowler" ql = true →
      route_intent ql = .bestBowler) ∧
    (strIn "best batsman" ql = false → strIn "best bowler" ql = false →
      (strIn "best all-rounder" ql || strIn "best all rounder" ql
        || strIn "best allrounder" ql) = true →
      route_intent ql = .bestAllRounder) ∧
    (strIn "best batsman" ql = false → strIn "best bowler" ql = false →
      strIn "best all-rounder" ql = false → strIn "best all rounder" ql = false →
      strIn "best allrounder" ql = false → strIn "best players" ql = true →
      route_intent ql = .bestPlayers) ∧
    (strIn "best batsman" ql = false → strIn "best bowler" ql = false →
      strIn "best all-rounder" ql = false → strIn "best all rounder" ql = false →
      strIn "best allrounder" ql = false → strIn "best players" ql = false →
      strIn "best team" ql = true → route_intent ql = .bestTeam) ∧
    (strIn "best batsman" ql = false → strIn "best bowler" ql = false →
      strIn "best all-rounder" ql = false → strIn "best all rounder" ql = false →
      strIn "best allrounder" ql = false → strIn "best players" ql = false →
      strIn "best team" ql = false →
      (strIn "batsmen" ql || strIn "batsman list" ql) = true →
      route_intent ql = .listBatsmen) ∧
    (strIn "best batsman" ql = false → strIn "best bowler" ql = false →
      strIn "best all-rounder" ql = false → strIn "best all rounder" ql = false →
      strIn "best allrounder" ql = false → strIn "best players" ql = false →
      strIn "best team" ql = false → strIn "batsmen" ql = false →
      strIn "batsman list" ql = false →
      (strIn "bowlers" ql || strIn "bowler list" ql) = true →
      route_intent ql = .listBowlers) ∧
    (strIn "best batsman" ql = false → strIn "best bowler" ql = false →
      strIn "best all-rounder" ql = false → strIn "best all rounder" ql = false →
      strIn "best allrounder" ql = false → strIn "best players" ql = false →
      strIn "best team" ql = false → strIn "batsmen" ql = false →
      strIn "batsman list" ql = false → strIn "bowlers" ql = false →
      strIn "bowler list" ql = false →
      (strIn "all-rounders" ql || strIn "all rounders" ql
        || strIn "allrounders" ql) = true →
      route_intent ql = .listAllRounders) ∧
    (strIn "best batsman" ql = false → strIn "best bowler" ql = false →
      strIn "best all-rounder" ql = false → strIn "best all rounder" ql = false →
      strIn "best allrounder" ql = false → strIn "best players" ql = false →
      strIn "best team" ql = false → strIn "batsmen" ql = false →
      strIn "batsman list" ql = false → strIn "bowlers" ql = false →
      strIn "bowler list" ql = false → strIn "all-rounders" ql = false →
      strIn "all rounders" ql = false → strIn "allrounders" ql = false →
      strIn "players" ql = true →
      route_intent ql = .mixedPlayers ∧ route_intent ql ≠ .fallback) ∧
    (strIn "best batsman" ql = false → strIn "best bowler" ql = false →
      strIn "best all-rounder" ql = false → strIn "best all rounder" ql = false →
      strIn "best allrounder" ql = false → strIn "best players" ql = false →
      strIn "best team" ql = false → strIn "batsmen" ql = false →
      strIn "batsman list" ql = false → strIn "bowlers" ql = false →
      strIn "bowler list" ql = false → strIn "all-rounders" ql = false →
      strIn "all rounders" ql = false → strIn "allrounders" ql = false →
      strIn "players" ql = false → route_intent ql = .fallback) := by
  refine ⟨?_, ?_, ?_, ?_, ?_, ?_, ?_, ?_, ?_, ?_⟩ <;>
    intros <;> simp_all [route_intent]

theorem c1_intent_order_witness :
    route_intent "show me your players" = .mixedPlayers ∧
    route_intent "show me your players" ≠ .fallback :=
  (c1_intent_order "show me your players").2.2.2.2.2.2.2.2.1
    (by decide) (by decide) (by decide) (by decide) (by decide) (by decide)
    (by decide) (by decide) (by decide) (by decide) (by decide) (by decide)
    (by decide) (by decide) (by decide)

/-- C4: the best-batsman intent filters to records whose role is Batsman,
sorts descending by total_runs with base_price as tie-break, and reports
the single top record: the reported record is a batsman of the input and
no batsman of the input exceeds it in the (total_runs, base_price)
lexicographic order; concretely, A (runs 120, price 500) beats
B (runs 80, price 900) regardless of price, and of two batsmen tied on
runs the one with the higher base_price is reported. -/
theorem c4_best_batsman :
    (∀ (players : List Player) (b : Player),
      best_batsman players = some b →
      b ∈ batsmenOf players ∧
        ∀ p ∈ batsmenOf players,
          batKey p = batKey b ∨ lexLt (batKey p) (batKey b) = true) ∧
    best_batsman [exBatA, exBatB] = some exBatA ∧
    best_batsman [exTieLow, exTieHigh] = some exTieHigh := by
  refine ⟨?_, by decide, by decide⟩
  intro players b hb
  have hbmem : b ∈ sortDesc lexLt batKey (batsmenOf players) :=
    List.mem_of_mem_head? hb
  constructor
  · exact (mem_sortDesc lexLt batKey b (batsmenOf players)).mp hbmem
  · intro p hp
    have hpmem : p ∈ sortDesc lexLt batKey (batsmenOf players) :=
      (mem_sortDesc lexLt batKey p (batsmenOf players)).mpr hp
    have hmax := sortDesc_head_max lexLt batKey lexLt_irrefl lexLt_asymm
      lexLt_neg_trans (batsmenOf players) b hb p hpmem
    rcases lexLt_total (batKey b) (batKey p) hmax with h | h
    · exact Or.inr h
    · exact Or.inl h.symm

theorem c4_best_batsman_witness :
    exBatA ∈ batsmenOf [exBatA, exBatB] ∧
      ∀ p ∈ batsmenOf [exBatA, exBatB],
        batKey p = batKey exBatA ∨ lexLt (batKey p) (batKey exBatA) = true :=
  c4_best_batsman.1 [exBatA, exBatB] exBatA (by decide)

theorem c2_team_guarantees_witness :
    ((build_best_team exTeamIn).map Player.name).Nodup ∧
      (build_best_team exTeamIn).length ≤ 11 ∧
      build_best_team exTeamIn ≠ [] := by
  have h := c2_team_guarantees exTeamIn (by decide)
  exact ⟨h.1, h.2.1, fun hb => by simpa [exTeamIn] using h.2.2 hb⟩

/-- C8: a query that, after trimming and lowercasing, exactly equals one of
the greeting tokens hi, hello, hey, greetings, hola returns the canned
greeting, for any storage state and any continuation of the pipeline
(so the domain filter is never reached); "Hello" in any letter case yields
the greeting, while "hello there" fails the exact match, reaches the
relevance filter, contains no cricket keyword, and yields the refusal. -/
theorem c8_greeting_gate (q : String) (storage : Option (List Player))
    (rest : List Player → String) :
    (stripStr q ≠ "" →
      lowerStr (stripStr q) ∈ greeting_words →
      query_chatbot_front q storage rest = greetingMsg) ∧
    query_chatbot_front "Hello" storage rest = greetingMsg ∧
    query_chatbot_front "hello there" storage rest = refusalMsg := by
  refine ⟨?_, ?_, ?_⟩
  · intro hne hg
    simp [query_chatbot_front, early_route, hne, hg]
  · have h : early_route "Hello" = .greet := by decide
    simp [query_chatbot_front, h]
  · have h : early_route "hello there" = .refuse := by decide
    simp [query_chatbot_front, h]

theorem c8_greeting_gate_witness :
    query_chatbot_front "HeLLo" (some []) (fun _ => "unreached") =
      greetingMsg :=
  (c8_greeting_gate "HeLLo" (some []) (fun _ => "unreached")).1
    (by decide) (by decide)

/-- C9: any query (not an exact greeting token after trimming and
lowercasing) whose text contains none of the fixed cricket keywords — that
is, `validate_cricket_query` rejects it — gets the refusal text, produced
for every storage state and every pipeline continuation alike, hence
before and without any access to player storage; in particular the reply
is identical across storage states. -/
theorem c9_offdomain_refusal (q : String)
    (storage storage2 : Option (List Player))
    (rest rest2 : List Player → String)
    (hne : stripStr q ≠ "")
    (hg : lowerStr (stripStr q) ∉ greeting_words)
    (hv : validate_cricket_query (stripStr q) = false) :
    query_chatbot_front q storage rest = refusalMsg ∧
      query_chatbot_front q storage rest =
        query_chatbot_front q storage2 rest2 := by
  have h : early_route q = .refuse := by
    simp [early_route, hne, hg, hv]
  constructor
  · simp [query_chatbot_front, h]
  · simp [query_chatbot_front, h]

theorem c9_offdomain_refusal_witness :
    query_chatbot_front "what is the weather" (some exTeamIn)
        (fun _ => "reached storage") = refusalMsg ∧
      query_chatbot_front "what is the weather" (some exTeamIn)
          (fun _ => "reached storage") =
        query_chatbot_front "what is the weather" none (fun _ => "other") :=
  c9_offdomain_refusal "what is the weather" (some exTeamIn) none
    (fun _ => "reached storage") (fun _ => "other")
    (by decide) (by decide) (by decide)

/-- C5 counterexample: with the model unconfigured, the fallback returns
the not-found reply even though a top-3 similarity search would return a
record — the top-3 stage is skipped entirely, refuting "first performs a
top-3 search" and "only if both return nothing is the not-found response
returned". -/
theorem c5_fallback_counterexample :
    free_form_fallback envUnconfigured searchOnlyTop3 = notFoundMsg ∧
      searchOnlyTop3 3 ≠ [] := by
  refine ⟨rfl, by decide⟩

/-- C5 amended: the free-form fallback always returns a reply string (it
is a total function into user-visible strings); if the top-3 and top-1
searches both return nothing, the not-found reply is returned; when the
text-generation model is unconfigured the top-3 search is never consulted
— the reply depends only on the top-1 result — and the not-found reply is
returned exactly when the top-1 search is empty. The top-3 stage runs only
inside the configured-model path. -/
theorem c5_fallback_amended (env : FallbackEnv)
    (search : Nat → List Player) :
    (search 3 = [] → search 1 = [] →
      free_form_fallback env search = notFoundMsg) ∧
    (env.configured = false →
      (free_form_fallback env search = notFoundMsg ↔ search 1 = [])) ∧
    (env.configured = false → ∀ search2 : Nat → List Player,
      search 1 = search2 1 →
      free_form_fallback env search = free_form_fallback env search2) := by
  obtain ⟨c, analysis, svc⟩ := env
  refine ⟨?_, ?_, ?_⟩
  · intro h3 h1
    cases c <;> cases analysis <;>
      simp [free_form_fallback, h3, h1, format_player_info]
  · intro hc
    subst hc
    by_cases h1 : search 1 = []
    · cases analysis <;> simp [free_form_fallback, h1]
    · have hred : free_form_fallback ⟨false, analysis, svc⟩ search =
          processingErrorMsg := by
        cases analysis <;> simp [free_form_fallback, h1, format_player_info]
      rw [hred]
      constructor
      · intro hcontra
        exact absurd hcontra (by decide)
      · intro hf
        exact absurd hf h1
  · intro hc search2 h12
    subst hc
    simp [free_form_fallback, h12]

theorem c5_fallback_amended_witness :
    free_form_fallback envUnconfigured (fun _ => []) = notFoundMsg :=
  (c5_fallback_amended envUnconfigured (fun _ => [])).1 rfl rfl

/-- C6: the enhancement call returns absent both when the service is
unconfigured and when its call throws, and no error propagates as an
exception; but the claim that every intent handler then falls back to the
Formatter and returns non-empty formatted text fails for the free-form
fallback handler: with Gemini unavailable and the top-1 vector search
returning a record, `format_player_info` receives the metadata LIST of
`results['metadatas'][0]` instead of a single record dict
(chatbot_routes.py line 596), raises a TypeError, and the outer handler
replies with the generic error text instead of formatted player text. -/
theorem c6_enhancement_fallback_bug :
    get_gemini_response false (some "enhanced text") = none ∧
    get_gemini_response true none = none ∧
    free_form_fallback envUnconfigured (fun _ => [exBatA]) =
      processingErrorMsg ∧
    processingErrorMsg ≠ format_player_text exBatA := by
  refine ⟨rfl, rfl, rfl, by decide⟩

/-- C7 counterexample: the query-time normalization loop of
chatbot_routes.py lines 93-127 does NOT substitute zero on a conversion
failure — `int("abc")` raises, the per-player except catches it, and the
record keeps the raw value for the failing field and for every later field
(here the perfectly convertible wickets value "7" is also left raw). -/
theorem c7_normalization_counterexample :
    normalize_player_fields badMeta = badMeta ∧
    dictGet (normalize_player_fields badMeta) "total_runs" (.vInt 0) =
      .vStr "abc" ∧
    dictGet (normalize_player_fields badMeta) "wickets" (.vInt 0) =
      .vStr "7" := by
  refine ⟨by decide, by decide, by decide⟩

/-- C7 amended: the ingestion-time `safe_convert` attempts conversion to
the target numeric type and on any failure — None, NaN, non-numeric —
substitutes the supplied default (zero at every call site) and never
raises, while preserving convertible values; the query-time conversion
loop substitutes zero only for MISSING fields (via the `get` defaults) and
on a non-convertible value abandons normalization of that record, leaving
the failing and subsequent fields raw (the error is caught, never
raised). -/
theorem c7_numeric_coercion_amended :
    (∀ (t : ConvTarget) (d : PyNum), safe_convert .vNone t d = d) ∧
    (∀ (t : ConvTarget) (d : PyNum), safe_convert .vNaN t d = d) ∧
    (∀ (s : String) (t : ConvTarget) (d : PyNum),
      pyConvert t (.vStr s) = .error () → safe_convert (.vStr s) t d = d) ∧
    (∀ (n : Int) (d : PyNum), safe_convert (.vInt n) .toIntT d = .pint n) ∧
    (dictGet (normalize_player_fields bareMeta) "total_runs" (.vStr "?") =
        .vInt 0 ∧
      dictGet (normalize_player_fields bareMeta) "Total Runs" (.vStr "?") =
        .vInt 0 ∧
      dictGet (normalize_player_fields bareMeta) "Overs Bowled" (.vStr "?") =
        .vFloat 0) := by
  refine ⟨fun t d => rfl, fun t d => rfl, ?_, ?_, by decide, by decide, by decide⟩
  · intro s t d h
    simp [safe_convert, pdIsna, h]
  · intro n d
    simp [safe_convert, pdIsna, pyConvert, pyInt, Except.map]

theorem c7_numeric_coercion_amended_witness :
    safe_convert (.vStr "abc") .toIntT (.pint 0) = .pint 0 :=
  c7_numeric_coercion_amended.2.2.1 "abc" .toIntT (.pint 0) rfl

/-- C10 counterexample: a bulk payload with two new players B and C
followed by an update of the existing player A — satisfying the claim's
premise of at least two new names — leaves the saved CSV with NO row for
C (nor B): the final iteration's write is the shared in-memory dataframe,
which never received the concatenated rows, so not even the last new
player survives when an existing-name update follows it. -/
theorem c10_bulk_update_counterexample :
    ("B" ∉ [rowA].map CsvRow.name ∧ "C" ∉ [rowA].map CsvRow.name) ∧
    (update_csv_data_players [rowA] [payB, payC, payAupd]).map CsvRow.name =
      ["A"] ∧
    "C" ∉ (update_csv_data_players [rowA] [payB, payC, payAupd]).map
      CsvRow.name := by
  refine ⟨⟨by decide, by decide⟩, by decide, by decide⟩

/-- C10 amended: in the bulk `players` branch each iteration overwrites
the file, new rows are concatenated to a local rebinding of the original
dataframe rather than to the accumulated one, and in-place updates to
already-present names persist; consequently the saved CSV is the original
rows with every matching update applied (last write per name), plus at
most one new row — the final list element's, and only when its name is
new. Two or more new players can therefore never all persist, and when the
list ends in an existing-name update no new row persists at all. -/
theorem c10_bulk_update_amended (csv : List CsvRow)
    (es : List PlayerPayload) (L : PlayerPayload)
    (hL : es.getLast? = some L) (hn : ∀ e ∈ es, e.name ≠ "") :
    update_csv_data_players csv es =
      (csv.map (upd_result es)) ++
        (if L.name ∈ csv.map CsvRow.name then [] else [newRow L]) := by
  unfold update_csv_data_players
  rw [update_loop_file es csv csv L hL hn, update_loop_df es csv csv]
  by_cases h : L.name ∈ csv.map CsvRow.name
  · simp [h]
  · simp [h]

theorem c10_bulk_update_amended_witness :
    update_csv_data_players [rowA] [payB] =
      ([rowA].map (upd_result [payB])) ++
        (if payB.name ∈ [rowA].map CsvRow.name then [] else [newRow payB]) :=
  c10_bulk_update_amended [rowA] [payB] payB rfl (by decide)
